import Mathlib

/-!
Verification development for the commitment-tracking bots
(`bot.py`, `event_manager_bot.py`, `task_manager_bot.py`,
`habit_tracker_bot.py`, `aislavery.py`).

The development shallowly embeds the temporal intent extraction engine
(duration extractor, time selection, ambiguity verdict) and the
commitment lifecycle engine (ledger rows in the spreadsheet, scheduler
jobs, confirmation dialogue, outcome handlers) and proves or refutes the
specification claims about them.

Modelling conventions:
* raw text that the regex-based duration extractor scans is represented
  as a list of lower-cased tokens (words and numeric literals), matching
  the granularity at which the regexes of `extract_duration` operate;
* timestamps are integers counting minutes, so `timedelta(minutes=d)`
  becomes integer addition;
* the external date-phrase resolver `dateparser.search.search_dates` is
  a capability: its output, a list of `(matched text, resolved time)`
  pairs, is a parameter of the intent-extractor model;
* the Google-Sheets ledger is a list of rows; writing the single cell
  `B<row>` is `setStatus`, which replaces only the status field of one
  row;
* the APScheduler job table is a list of `Job` values; the distinct
  job-id namespaces built by string interpolation in the source
  (`event_id`, `f"auto_update_{event_id}"`, ...) are the constructors of
  `JobId`.
-/

/-- A numeric literal captured by the regex group `(\d+(?:\.\d+)?)`:
`numr` is the digit string with the decimal point removed and `deno`
the power of ten given by the number of fractional digits, so the
represented value is `numr / deno`.  Python `int(x)` on a nonnegative
float truncates, which is natural-number division here. -/
structure NumLit where
  numr : Nat
  deno : Nat
  deriving DecidableEq, Repr

/-- A token of the scanned text: a lower-cased word or a numeric
literal.  `re.IGNORECASE` is modelled by lower-casing up front. -/
inductive DTok where
  | word (w : String)
  | num (n : NumLit)
  deriving DecidableEq, Repr

/-- Classification of a word as a duration unit by the regex alternation
`hours?|hrs?|h|minutes?|mins?|m`: the alternation matches at the start
of a word exactly when the word begins with `h` (some hour alternative,
`match.group(2).startswith(('hour','hr','h'))` is then true) or with `m`
(some minute alternative).  `some true` is hours, `some false` minutes. -/
def unitKind (w : String) : Option Bool :=
  match w.data with
  | 'h' :: _ => some true
  | 'm' :: _ => some false
  | _ => none

/-- Conversion of a captured count to minutes, from `extract_duration`
(`bot.py:139`/`event_manager_bot.py:84`): `int(num * 60)` for hour
units, `int(num)` for minute units; fractional counts are truncated. -/
def durValue (n : NumLit) (isHour : Bool) : Nat :=
  if isHour then n.numr * 60 / n.deno else n.numr / n.deno

/-- Leftmost occurrence of `kw` followed by a number and a unit word,
the token-level reading of `re.search(r'for (\d+(?:\.\d+)?)\s*(unit)')`
and of the `lasting` pattern of `extract_duration`. -/
def findKwNumUnit (kw : String) : List DTok → Option (NumLit × Bool)
  | [] => none
  | t :: ts =>
    match t, ts with
    | .word a, .num n :: .word u :: _ =>
      if a = kw then
        match unitKind u with
        | some h => some (n, h)
        | none => findKwNumUnit kw ts
      else findKwNumUnit kw ts
    | _, _ => findKwNumUnit kw ts

/-- Leftmost bare `N unit` occurrence anywhere in the text, the
token-level reading of
`re.search(r'(\d+(?:\.\d+)?)\s*(unit)\s*(long|duration)?')` (the
trailing `long|duration` group is optional and never constrains the
match). -/
def findNumUnit : List DTok → Option (NumLit × Bool)
  | [] => none
  | .num n :: rest =>
    match rest with
    | .word u :: _ =>
      match unitKind u with
      | some h => some (n, h)
      | none => findNumUnit rest
    | _ => findNumUnit rest
  | _ :: rest => findNumUnit rest

/-- The duration extractor of `bot.py:128` and `event_manager_bot.py:73`
(identical code): the patterns are tried over the whole text in the
order they appear in `duration_patterns` — the `for N unit` form, then
the bare `N unit` form, then the `lasting N unit` form — and the first
pattern that matches anywhere determines the result; with no match the
default of 60 minutes is returned. -/
def extract_duration (ts : List DTok) : Nat :=
  match findKwNumUnit "for" ts with
  | some (n, h) => durValue n h
  | none =>
    match findNumUnit ts with
    | some (n, h) => durValue n h
    | none =>
      match findKwNumUnit "lasting" ts with
      | some (n, h) => durValue n h
      | none => 60

/-- Bare `N unit` or `N unit long` occurrence at the very end of the
text only.  Modelled from the claim wording for C6, which describes the
bare form as a trailing form; used solely to compare the claimed
priority order with the code. -/
def findNumUnitTrailing : List DTok → Option (NumLit × Bool)
  | [.num n, .word u] =>
    match unitKind u with
    | some h => some (n, h)
    | none => none
  | [.num n, .word u, .word "long"] =>
    match unitKind u with
    | some h => some (n, h)
    | none => none
  | _ :: rest => findNumUnitTrailing rest
  | [] => none

/-- The duration extractor as the C6 claim words it: priority order
`for N unit`, `in N unit`, `lasting N unit`, then the bare trailing
`N unit [long]` form.  Modelled from the claim, for comparison with
`extract_duration`. -/
def extract_duration_claim_order (ts : List DTok) : Nat :=
  match findKwNumUnit "for" ts with
  | some (n, h) => durValue n h
  | none =>
    match findKwNumUnit "in" ts with
    | some (n, h) => durValue n h
    | none =>
      match findKwNumUnit "lasting" ts with
      | some (n, h) => durValue n h
      | none =>
        match findNumUnitTrailing ts with
        | some (n, h) => durValue n h
        | none => 60

/-- The actual priority order of `extract_duration`, written as an
explicit first-match-wins scan over the pattern list, for the amended
C6 claim. -/
def extract_duration_priority_spec (ts : List DTok) : Nat :=
  match [findKwNumUnit "for" ts, findNumUnit ts,
         findKwNumUnit "lasting" ts].findSome? id with
  | some (n, h) => durValue n h
  | none => 60

/-- The IEEE-754 double overflow threshold: under round-to-nearest a
nonnegative exact value converts to infinity exactly when it reaches
`2 ^ 1024 - 2 ^ 970` (the midpoint above the largest finite double).
Python `float(capture)` on a numeral whose value is at or above this
threshold yields `inf`, and `int(inf)` raises `OverflowError`. -/
def dblOverflow : Nat := 2 ^ 1024 - 2 ^ 970

/-- Whether `float(capture)` overflows to infinity: the captured value
`numr / deno` reaches the threshold.  The test uses the exact captured
value; the parse rounding can move the boundary by one part in
`2 ^ 53`, and no statement below rests on a boundary-straddling
numeral. -/
def floatOverflows (n : NumLit) : Bool :=
  decide (dblOverflow * n.deno ≤ n.numr)

/-- Whether the hour-unit computation `num * 60` is infinite: the
scaled captured value reaches the threshold (an already-infinite `num`
is the special case `numr / deno` itself over the threshold). -/
def floatOverflows60 (n : NumLit) : Bool :=
  decide (dblOverflow * n.deno ≤ 60 * n.numr)

/-- The count conversion with its numeric error path: for minute units
`int(num)` raises `OverflowError` when `float(capture)` is infinite,
for hour units `int(num * 60)` raises when the scaled value is
infinite; otherwise the truncated count `durValue` is returned. -/
def durValueE (n : NumLit) (isHour : Bool) : Except Unit Nat :=
  if isHour then
    if floatOverflows60 n then .error () else .ok (durValue n true)
  else
    if floatOverflows n then .error () else .ok (durValue n false)

/-- The duration extractor with the numeric error path of the source:
the same pattern search as `extract_duration`, but the conversion of
the first match can raise `OverflowError`, which the `bot.py:128` code
does not catch and therefore propagates to the caller.
`extract_duration` above is the restriction of this function to inputs
on which no conversion overflows. -/
def extract_durationE (ts : List DTok) : Except Unit Nat :=
  match findKwNumUnit "for" ts with
  | some (n, h) => durValueE n h
  | none =>
    match findNumUnit ts with
    | some (n, h) => durValueE n h
    | none =>
      match findKwNumUnit "lasting" ts with
      | some (n, h) => durValueE n h
      | none => .ok 60

/-- Whether every numeric literal of the text is small enough that
neither its float conversion nor its hour scaling overflows. -/
def numsBounded (ts : List DTok) : Bool :=
  ts.all fun t =>
    match t with
    | .num n => !(floatOverflows60 n)
    | _ => true

/-! ## Intent extractor: time selection and ambiguity verdict

`parse_natural_language` of `bot.py:155` and `event_manager_bot.py:103`
(identical logic).  The external resolver `search_dates` is a
capability, so its output on the duration-stripped text — a list of
`(matched substring, resolved time)` pairs in declared order — is a
parameter, as is the token count of the description remaining after the
chosen substring has been removed and the cleanup regexes have run. -/

/-- What was removed from the working text before the description
cleanup: the immediacy keywords, nothing (no date found), or the
matched date substring chosen by the selection step. -/
inductive Removed where
  | nowWords
  | nothing
  | dateText (s : String)
  deriving DecidableEq, Repr

/-- The time-selection and ambiguity logic of `parse_natural_language`
(`bot.py:155`, `event_manager_bot.py:103`).  `isNow` is the result of
the immediacy-keyword check on the duration-stripped text, `dateTimes`
the output of `search_dates` on it, and `descLen` gives the number of
whitespace-delimited tokens of the cleaned-up description after the
indicated removal.  Returns `(event_datetime, ambiguous)`.  The
`ambiguous` flag starts false, is set by the date selection (no match,
several future matches, or only past matches), and is forced true by a
description of fewer than two tokens. -/
def parse_natural_language (now : Int) (isNow : Bool)
    (dateTimes : List (String × Int)) (descLen : Removed → Nat) :
    Int × Bool :=
  if isNow then
    (now, decide (descLen .nowWords < 2))
  else
    match dateTimes with
    | [] => (now, true)
    | first :: _ =>
      match dateTimes.filter (fun p => now < p.2) with
      | [] => (first.2, true)
      | (t, d) :: rest =>
        (d, decide (rest ≠ []) || decide (descLen (.dateText t) < 2))

/-- The removal actually performed by `parse_natural_language` in each
branch, so that the cleaned-up description the code computes is
`descLen (chosenRemoval now isNow dateTimes)`. -/
def chosenRemoval (now : Int) (isNow : Bool)
    (dateTimes : List (String × Int)) : Removed :=
  if isNow then .nowWords
  else
    match dateTimes with
    | [] => .nothing
    | first :: _ =>
      match dateTimes.filter (fun p => now < p.2) with
      | [] => .dateText first.1
      | (t, _) :: _ => .dateText t

/-! ## The commitment ledger and the scheduler

The spreadsheet tabs `Events!A:E` and `Habits!A:E` have columns
Description / Status / Date / Time / Event ID; `Tasks!A:D` has
Description / Status / Start Date / Due Date.  A row of data is one
list entry; writing the single cell `B<n>` (the status column) of data
row `n` is `setStatus`/`setStatusTask`. -/

/-- A data row of the `Events` or `Habits` sheet.  `date` and `time`
stand for the `%Y-%m-%d` and `%H:%M` cells. -/
structure LedgerRow where
  desc : String
  status : String
  date : Int
  time : Int
  eventId : String
  deriving DecidableEq, Repr

/-- A data row of the `Tasks` sheet of `task_manager_bot.py`. -/
structure TaskRow where
  desc : String
  status : String
  startDate : Int
  dueDate : Int
  deriving DecidableEq, Repr

/-- Index of the first row satisfying a predicate, as computed by the
`for idx, record in enumerate(rows, start=2): ... break` scans (our
index 0 is sheet row 2). -/
def findFirstIdx {α : Type} (p : α → Bool) : List α → Option Nat
  | [] => none
  | r :: rs => if p r then some 0 else (findFirstIdx p rs).map (· + 1)

/-- Write the status cell (column B) of data row `k`, leaving every
other cell and row untouched — the effect of
`values().update(range=f'...!B{row_number}', body=[[s]])`. -/
def setStatus : List LedgerRow → Nat → String → List LedgerRow
  | [], _, _ => []
  | r :: rs, 0, s => { r with status := s } :: rs
  | r :: rs, Nat.succ k, s => r :: setStatus rs k s

/-- The same single-cell write on the `Tasks` sheet. -/
def setStatusTask : List TaskRow → Nat → String → List TaskRow
  | [], _, _ => []
  | r :: rs, 0, s => { r with status := s } :: rs
  | r :: rs, Nat.succ k, s => r :: setStatusTask rs k s

/-- Lower-casing of one character, the effect of Python `.lower()` on
ASCII text (the sheets hold ASCII descriptions). -/
def lowerChar (c : Char) : Char :=
  if 65 ≤ c.toNat ∧ c.toNat ≤ 90 then Char.ofNat (c.toNat + 32) else c

/-- Case-insensitive string comparison, the `a.lower() == b.lower()`
test used by the task and habit row lookups. -/
def lowerEq (a b : String) : Bool :=
  a.data.map lowerChar == b.data.map lowerChar

/-- Scheduler job identifiers.  The source builds them by string
interpolation in disjoint formats; each format is one constructor:
`event_id` itself for the completion check registered at event
creation, `f"auto_update_{event_id}"` for the auto-expiry,
`f"task_reminder_{desc}_{due}"` for the pre-due task reminder, and
`f"habit_check_{event_id}"` for the habit completion check. -/
inductive JobId where
  | check (eid : String)
  | autoUpdate (eid : String)
  | taskReminder (desc : String) (due : Int)
  | habitCheck (eid : String)
  deriving DecidableEq, Repr

/-- A registered scheduler job: its id and the `run_date` it fires at
(minutes). -/
structure Job where
  id : JobId
  runDate : Int
  deriving DecidableEq, Repr

/-- `scheduler.remove_job`: APScheduler raises `JobLookupError` when no
job with the given id is registered, so removal is fallible. -/
def remove_job (jobs : List Job) (jid : JobId) : Except Unit (List Job) :=
  if jobs.any (fun j => j.id == jid) then
    .ok (jobs.filter (fun j => j.id != jid))
  else
    .error ()

/-- The `try: scheduler.remove_job(...) except Exception: pass` wrapper
of `event_manager_bot.py:478` / `bot.py:550`: a failed cancellation is
swallowed and the job table is left unchanged. -/
def remove_job_safe (jobs : List Job) (jid : JobId) : List Job :=
  match remove_job jobs jid with
  | .ok js => js
  | .error _ => jobs

/-- Day part of a timestamp, the `strftime('%Y-%m-%d')` cell. -/
def dateCell (t : Int) : Int := t / 1440

/-- Time-of-day part of a timestamp, the `strftime('%H:%M')` cell. -/
def timeCell (t : Int) : Int := t % 1440

/-- Ledger and scheduler effects of `create_event`
(`event_manager_bot.py:188`, identically `bot.py:229`): append a
`Pending` row for the new event and register the completion check,
keyed by the calendar event id, at `event_datetime + duration`. -/
def create_event (rows : List LedgerRow) (jobs : List Job) (desc : String)
    (startAt dur : Int) (eid : String) : List LedgerRow × List Job :=
  (rows ++ [⟨desc, "Pending", dateCell startAt, timeCell startAt, eid⟩],
   jobs ++ [⟨JobId.check eid, startAt + dur⟩])

/-- Ledger and scheduler effects of `create_task`
(`task_manager_bot.py:126`): append a `Pending` row and register the
reminder 30 minutes before the due date. -/
def create_task (rows : List TaskRow) (jobs : List Job) (desc : String)
    (now due : Int) : List TaskRow × List Job :=
  (rows ++ [⟨desc, "Pending", now, due⟩],
   jobs ++ [⟨JobId.taskReminder desc due, due - 30⟩])

/-- Ledger and scheduler effects of `create_habit_event`
(`habit_tracker_bot.py:222`): append a `Pending` row and register the
habit completion check at `now + (duration + 30)` (line 266:
`reminder_time = now + timedelta(minutes=duration + 30)`). -/
def create_habit_event (rows : List LedgerRow) (jobs : List Job)
    (desc : String) (now dur : Int) (eid : String) :
    List LedgerRow × List Job :=
  (rows ++ [⟨desc, "Pending", dateCell now, timeCell now, eid⟩],
   jobs ++ [⟨JobId.habitCheck eid, now + (dur + 30)⟩])

/-- Ledger effect of `auto_update_event_status`
(`event_manager_bot.py:381`, identically `bot.py:454`): find the first
row whose `Event ID` matches and whose `Status` is still `Pending`;
write `Missed` to its status cell, or do nothing when no such row
exists. -/
def auto_update_event_status (rows : List LedgerRow) (eid : String) :
    List LedgerRow :=
  match findFirstIdx (fun r => r.eventId == eid && r.status == "Pending") rows with
  | none => rows
  | some k => setStatus rows k "Missed"

/-- Ledger and scheduler effects of `handle_event_response`
(`event_manager_bot.py:421`, identically `bot.py:493`): find the first
row whose `Event ID` matches — with no check of its current status —
write `Done` or `Missed` to its status cell, and cancel the auto-expiry
job, swallowing the error when it does not exist.  When no row matches,
nothing is written and no job is cancelled. -/
def handle_event_response (rows : List LedgerRow) (jobs : List Job)
    (done : Bool) (eid : String) : List LedgerRow × List Job :=
  match findFirstIdx (fun r => r.eventId == eid) rows with
  | none => (rows, jobs)
  | some k =>
    (setStatus rows k (if done then "Done" else "Missed"),
     remove_job_safe jobs (JobId.autoUpdate eid))

/-- Ledger effect of `handle_task_response`
(`task_manager_bot.py:277`): find the first row whose description
matches case-insensitively and whose due date matches, then write
`Done` for the `task_done` button and `Pending` for the `task_not_done`
button. -/
def handle_task_response (rows : List TaskRow) (done : Bool)
    (desc : String) (due : Int) : List TaskRow :=
  match findFirstIdx (fun r => lowerEq r.desc desc && r.dueDate == due) rows with
  | none => rows
  | some k => setStatusTask rows k (if done then "Done" else "Pending")

/-- Row lookup of `get_habit_row` (`habit_tracker_bot.py:197`): first
row matching description (case-insensitively) and date. -/
def get_habit_row (rows : List LedgerRow) (desc : String) (date : Int) :
    Option Nat :=
  findFirstIdx (fun r => lowerEq r.desc desc && r.date == date) rows

/-- Ledger and scheduler effects of `handle_habit_response`
(`habit_tracker_bot.py:400`): locate the record by `Event ID`, re-find
its row via `get_habit_row`, write `Done` or `Missed` to its status
cell, and remove the `habit_check_` reminder job if it is registered
(the removal is guarded by `scheduler.get_job`, so a missing job is
simply skipped). -/
def handle_habit_response (rows : List LedgerRow) (jobs : List Job)
    (done : Bool) (eid : String) : List LedgerRow × List Job :=
  match rows.find? (fun r => r.eventId == eid) with
  | none => (rows, jobs)
  | some r =>
    match get_habit_row rows r.desc r.date with
    | none => (rows, jobs)
    | some k =>
      (setStatus rows k (if done then "Done" else "Missed"),
       if jobs.any (fun j => j.id == JobId.habitCheck eid) then
         jobs.filter (fun j => j.id != JobId.habitCheck eid)
       else jobs)

/-! ## Confirmation dialogue

The conversation handlers that gate commitment creation.  A parse
result is abstracted to the fields the control flow inspects: the
description (only its emptiness matters; the returned datetime of
`parse_natural_language` is a `datetime` object and always truthy) and
the ambiguity flag. -/

/-- The fields of a natural-language parse inspected by the handlers. -/
structure NLParse where
  description : String
  ambiguous : Bool
  deriving DecidableEq, Repr

/-- What a commitment-creating handler does with one incoming update. -/
inductive HandlerAction where
  | rejectInput
  | askConfirmation
  | createDirect
  deriving DecidableEq, Repr

/-- Control flow of `handle_natural_language` (`bot.py:292`): an empty
description is rejected with a usage hint; an ambiguous parse is shown
back for confirmation; an unambiguous parse goes straight to
`create_event` with no confirmation step. -/
def handle_natural_language (p : NLParse) : HandlerAction :=
  if p.description = "" then .rejectInput
  else if p.ambiguous then .askConfirmation
  else .createDirect

/-- Input shape of `/setevent`: the structured pipe-delimited grammar
(`parsedDatetimeOk` is whether `dateparser.parse` succeeded on the
middle field) or free natural language. -/
inductive SetEventInput where
  | structured (parsedDatetimeOk : Bool)
  | natural (p : NLParse)
  deriving DecidableEq, Repr

/-- Control flow of `set_event` (`bot.py:357`, identically
`event_manager_bot.py:250`): a structured draft whose datetime parses,
and any natural-language draft with a nonempty description, are stored
as the pending event and always sent to confirmation — the `ambiguous`
flag is not consulted. -/
def set_event : SetEventInput → HandlerAction
  | .structured ok => if ok then .askConfirmation else .rejectInput
  | .natural p =>
    if p.description = "" then .rejectInput else .askConfirmation

/-- Input shape of `/settask` (`task_manager_bot.py:188`): the
structured `description | due date` grammar (`formatOk` is the
`YYYY-MM-DD HH:MM` regex validation, `parsedOk` whether
`dateparser.parse` succeeded) or free natural language. -/
inductive SetTaskInput where
  | structured (formatOk parsedOk : Bool)
  | natural (p : NLParse)
  deriving DecidableEq, Repr

/-- Control flow of `set_task` (`task_manager_bot.py:188`): structured
drafts go to confirmation once both validations pass; a
natural-language draft with an empty description is rejected, an
ambiguous one is rejected with an error message
(`"Your input is ambiguous..."`, line 232), and only an unambiguous one
is stored and sent to confirmation. -/
def set_task : SetTaskInput → HandlerAction
  | .structured fmtOk parsedOk =>
    if fmtOk then (if parsedOk then .askConfirmation else .rejectInput)
    else .rejectInput
  | .natural p =>
    if p.description = "" then .rejectInput
    else if p.ambiguous then .rejectInput
    else .askConfirmation

/-- Outcome of one turn of the confirmation state. -/
inductive ConfirmOutcome where
  | reprompt
  | endNoPending
  | created
  | cancelled
  deriving DecidableEq, Repr

/-- Control flow of `handle_confirmation` (`bot.py:323`, identically
`event_manager_bot.py:318`) on the stripped, lower-cased reply: a reply
other than yes/no re-prompts without leaving the confirmation state; a
missing pending draft ends the dialogue; `yes` invokes `create_event`
on the stored draft; `no` cancels with no ledger write. -/
def handle_confirmation (resp : String) (hasPending : Bool) :
    ConfirmOutcome :=
  if resp ≠ "yes" ∧ resp ≠ "no" then .reprompt
  else if !hasPending then .endNoPending
  else if resp = "yes" then .created
  else .cancelled

/-! ## Helper lemmas -/

theorem findFirstIdx_some {α : Type} (p : α → Bool) :
    ∀ (l : List α) (k : Nat), findFirstIdx p l = some k →
      ∃ r, l[k]? = some r ∧ p r = true
  | [], k, h => by simp [findFirstIdx] at h
  | a :: as, k, h => by
    by_cases hp : p a
    · simp only [findFirstIdx, if_pos hp, Option.some.injEq] at h
      subst h
      exact ⟨a, by simp, hp⟩
    · simp only [findFirstIdx, if_neg hp, Option.map_eq_some'] at h
      obtain ⟨j, hj, rfl⟩ := h
      obtain ⟨r, hr, hpr⟩ := findFirstIdx_some p as j hj
      exact ⟨r, by simpa using hr, hpr⟩

theorem setStatus_length :
    ∀ (l : List LedgerRow) (k : Nat) (s : String),
      (setStatus l k s).length = l.length
  | [], _, _ => rfl
  | _ :: rs, 0, s => by simp [setStatus]
  | _ :: rs, Nat.succ k, s => by
    simp [setStatus, setStatus_length rs k s]

theorem setStatusTask_length :
    ∀ (l : List TaskRow) (k : Nat) (s : String),
      (setStatusTask l k s).length = l.length
  | [], _, _ => rfl
  | _ :: rs, 0, s => by simp [setStatusTask]
  | _ :: rs, Nat.succ k, s => by
    simp [setStatusTask, setStatusTask_length rs k s]

theorem setStatus_getElem? :
    ∀ (l : List LedgerRow) (k : Nat) (s : String) (i : Nat),
      (setStatus l k s)[i]? =
        if i = k then l[i]?.map (fun r => { r with status := s })
        else l[i]?
  | [], k, s, i => by simp [setStatus]
  | r :: rs, 0, s, 0 => by simp [setStatus]
  | r :: rs, 0, s, i + 1 => by simp [setStatus]
  | r :: rs, k + 1, s, 0 => by simp [setStatus]
  | r :: rs, k + 1, s, i + 1 => by
    simpa [setStatus] using setStatus_getElem? rs k s i

theorem setStatusTask_getElem? :
    ∀ (l : List TaskRow) (k : Nat) (s : String) (i : Nat),
      (setStatusTask l k s)[i]? =
        if i = k then l[i]?.map (fun r => { r with status := s })
        else l[i]?
  | [], k, s, i => by simp [setStatusTask]
  | r :: rs, 0, s, 0 => by simp [setStatusTask]
  | r :: rs, 0, s, i + 1 => by simp [setStatusTask]
  | r :: rs, k + 1, s, 0 => by simp [setStatusTask]
  | r :: rs, k + 1, s, i + 1 => by
    simpa [setStatusTask] using setStatusTask_getElem? rs k s i

/-- The columns of an `Events`/`Habits` row other than the status. -/
def rowKey (r : LedgerRow) : String × Int × Int × String :=
  (r.desc, r.date, r.time, r.eventId)

/-- The columns of a `Tasks` row other than the status. -/
def taskKey (r : TaskRow) : String × Int × Int :=
  (r.desc, r.startDate, r.dueDate)

theorem setStatus_getElem?_rowKey (l : List LedgerRow) (k : Nat) (s : String)
    (i : Nat) :
    (setStatus l k s)[i]?.map rowKey = l[i]?.map rowKey := by
  rw [setStatus_getElem?]
  by_cases h : i = k
  · simp only [if_pos h, Option.map_map]
    cases l[i]? <;> simp [rowKey]
  · simp [if_neg h]

theorem setStatusTask_getElem?_taskKey (l : List TaskRow) (k : Nat) (s : String)
    (i : Nat) :
    (setStatusTask l k s)[i]?.map taskKey = l[i]?.map taskKey := by
  rw [setStatusTask_getElem?]
  by_cases h : i = k
  · simp only [if_pos h, Option.map_map]
    cases l[i]? <;> simp [taskKey]
  · simp [if_neg h]

theorem findKwNumUnit_mem (kw : String) :
    ∀ (ts : List DTok) (p : NumLit × Bool),
      findKwNumUnit kw ts = some p → DTok.num p.1 ∈ ts := by
  intro ts
  induction ts with
  | nil => intro p h; simp [findKwNumUnit] at h
  | cons t ts ih =>
    intro p h
    simp only [findKwNumUnit] at h
    split at h
    · split at h
      · split at h
        · cases h
          simp
        · exact List.mem_cons_of_mem _ (ih p h)
      · exact List.mem_cons_of_mem _ (ih p h)
    · exact List.mem_cons_of_mem _ (ih p h)

theorem findNumUnit_mem :
    ∀ (ts : List DTok) (p : NumLit × Bool),
      findNumUnit ts = some p → DTok.num p.1 ∈ ts := by
  intro ts
  induction ts with
  | nil => intro p h; simp [findNumUnit] at h
  | cons t ts ih =>
    intro p h
    cases t with
    | word w =>
      simp only [findNumUnit] at h
      exact List.mem_cons_of_mem _ (ih p h)
    | num n =>
      simp only [findNumUnit] at h
      split at h
      · split at h
        · cases h
          simp
        · exact List.mem_cons_of_mem _ (ih p h)
      · exact List.mem_cons_of_mem _ (ih p h)

theorem numsBounded_mem (ts : List DTok) (n : NumLit)
    (hb : numsBounded ts = true) (hm : DTok.num n ∈ ts) :
    floatOverflows60 n = false := by
  have h := List.all_eq_true.mp hb (DTok.num n) hm
  simpa using h

theorem floatOverflows60_of_floatOverflows (n : NumLit)
    (h : floatOverflows n = true) : floatOverflows60 n = true := by
  simp only [floatOverflows, decide_eq_true_eq] at h
  simp only [floatOverflows60, decide_eq_true_eq]
  calc dblOverflow * n.deno ≤ n.numr := h
    _ ≤ 60 * n.numr := Nat.le_mul_of_pos_left _ (by norm_num)

theorem durValueE_ok (n : NumLit) (hh : Bool)
    (hb : floatOverflows60 n = false) :
    durValueE n hh = .ok (durValue n hh) := by
  have hb1 : floatOverflows n = false := by
    cases hfo : floatOverflows n
    · rfl
    · rw [floatOverflows60_of_floatOverflows n hfo] at hb
      cases hb
  cases hh
  · simp [durValueE, hb1]
  · simp [durValueE, hb]

/-! ## Claims about the intent extractor -/

/-- C4 (confirmed).  For input with no immediacy keyword, the time
selection of `parse_natural_language` satisfies: with no locator match,
`when = now` and `ambiguous = true`; with at least one strictly-future
match, `when` is the earliest-declared future match (the head of the
future-filtered list) and more than one future match forces
`ambiguous = true`; with matches but none in the future, `when` is the
first declared match and `ambiguous = true`. -/
theorem C4_time_selection (now : Int) (dateTimes : List (String × Int))
    (descLen : Removed → Nat) :
    (dateTimes = [] →
      parse_natural_language now false dateTimes descLen = (now, true)) ∧
    (∀ t d rest, dateTimes.filter (fun p => now < p.2) = (t, d) :: rest →
      (parse_natural_language now false dateTimes descLen).1 = d ∧
      (rest ≠ [] →
        (parse_natural_language now false dateTimes descLen).2 = true)) ∧
    (∀ first tail, dateTimes = first :: tail →
      dateTimes.filter (fun p => now < p.2) = [] →
      parse_natural_language now false dateTimes descLen =
        (first.2, true)) := by
  refine ⟨?_, ?_, ?_⟩
  · rintro rfl
    rfl
  · rintro t d rest hf
    cases dateTimes with
    | nil => simp at hf
    | cons first tl =>
      constructor
      · simp only [parse_natural_language, Bool.false_eq_true, if_false, hf]
      · intro hrest
        simp only [parse_natural_language, Bool.false_eq_true, if_false, hf]
        simp [hrest]
  · rintro first tail rfl hf
    simp only [parse_natural_language, Bool.false_eq_true, if_false, hf]

/-- Witness for C4: at reference time 0 with locator output
`[("mon", -5), ("tue", 10), ("wed", 20)]` the future-filtered list is
`[("tue", 10), ("wed", 20)]`, so the selected time is 10 and the two
future candidates force ambiguity. -/
theorem C4_time_selection_witness :
    (parse_natural_language 0 false [("mon", -5), ("tue", 10), ("wed", 20)]
      (fun _ => 3)).1 = 10 ∧
    (parse_natural_language 0 false [("mon", -5), ("tue", 10), ("wed", 20)]
      (fun _ => 3)).2 = true := by
  have h :=
    (C4_time_selection 0 [("mon", -5), ("tue", 10), ("wed", 20)]
        (fun _ => 3)).2.1 "tue" 10 [("wed", 20)] (by decide)
  exact ⟨h.1, h.2 (by decide)⟩

/-- C5 (confirmed).  With exactly one future-resolving locator match
and a cleaned-up description of at least two tokens the verdict is
`ambiguous = false`; and whenever the cleaned-up description that the
code computes (after the removal it actually performs) has fewer than
two tokens, `ambiguous = true` regardless of the time resolution. -/
theorem C5_ambiguity_verdict (now : Int) (dateTimes : List (String × Int))
    (descLen : Removed → Nat) :
    (∀ t d, dateTimes.filter (fun p => now < p.2) = [(t, d)] →
      2 ≤ descLen (.dateText t) →
      (parse_natural_language now false dateTimes descLen).2 = false) ∧
    (∀ isNow : Bool, descLen (chosenRemoval now isNow dateTimes) < 2 →
      (parse_natural_language now isNow dateTimes descLen).2 = true) := by
  constructor
  · intro t d hf hlen
    cases dateTimes with
    | nil => simp at hf
    | cons first tl =>
      simp only [parse_natural_language, Bool.false_eq_true, if_false, hf]
      simp [Nat.not_lt.mpr hlen]
  · intro isNow hlen
    cases isNow with
    | true =>
      simp only [chosenRemoval, if_true] at hlen
      simp [parse_natural_language, hlen]
    | false =>
      cases dateTimes with
      | nil => rfl
      | cons first tl =>
        rcases hf : (first :: tl).filter (fun p => now < p.2) with
          _ | ⟨⟨t, d⟩, rest⟩
        · simp only [parse_natural_language, Bool.false_eq_true, if_false, hf]
        · simp only [chosenRemoval, Bool.false_eq_true, if_false, hf] at hlen
          simp only [parse_natural_language, Bool.false_eq_true, if_false, hf]
          simp [hlen]

/-- Witness for C5: one future match with a three-token description is
unambiguous, the same match with a one-token description is forced
ambiguous. -/
theorem C5_ambiguity_verdict_witness :
    (parse_natural_language 0 false [("tomorrow", 100)]
      (fun _ => 3)).2 = false ∧
    (parse_natural_language 0 false [("tomorrow", 100)]
      (fun _ => 1)).2 = true := by
  constructor
  · exact (C5_ambiguity_verdict 0 [("tomorrow", 100)] (fun _ => 3)).1
      "tomorrow" 100 (by decide) (by decide)
  · exact (C5_ambiguity_verdict 0 [("tomorrow", 100)] (fun _ => 1)).2
      false (by decide)

/-! ## Claims about the duration extractor -/

/-- The token list for the text `5 minutes lasting 2 hours`. -/
def c6Text : List DTok :=
  [.num ⟨5, 1⟩, .word "minutes", .word "lasting", .num ⟨2, 1⟩,
   .word "hours"]

/-- Counterexample to C6.  On `5 minutes lasting 2 hours` the code
returns 5 — its second pattern is the bare `N unit` form matching
anywhere, found before `lasting` is tried — while the priority order
stated by the claim (`for`, `in`, `lasting`, then a bare trailing form)
would return 120. -/
theorem C6_pattern_order_counterexample :
    extract_duration c6Text = 5 ∧
    extract_duration_claim_order c6Text = 120 := by decide

/-- C6 as amended.  The patterns are tried in the priority order
`for N unit`, then the bare `N unit [long]` form matching anywhere in
the text, then `lasting N unit`; there is no separate `in N unit`
pattern (such phrases are matched by the bare form).  The first
matching pattern determines the result; hour units are multiplied by
60 and fractional counts are truncated (`durValue`). -/
theorem C6_pattern_order (ts : List DTok) :
    extract_duration ts = extract_duration_priority_spec ts := by
  rcases h1 : findKwNumUnit "for" ts with _ | ⟨n1, b1⟩ <;>
    rcases h2 : findNumUnit ts with _ | ⟨n2, b2⟩ <;>
      rcases h3 : findKwNumUnit "lasting" ts with _ | ⟨n3, b3⟩ <;>
        simp [extract_duration, extract_duration_priority_spec,
          List.findSome?, h1, h2, h3]

set_option exponentiation.threshold 1100 in
/-- Counterexample to C9.  Duration extraction is not total: on
`999...9 minutes` with a 309-digit numeral (value `10 ^ 309 - 1`) the
captured count converts to an infinite float and `int(num)` raises
`OverflowError`, which `extract_duration` propagates instead of
returning a value. -/
theorem C9_duration_overflow_counterexample :
    extract_durationE [.num ⟨10 ^ 309 - 1, 1⟩, .word "minutes"] =
      .error () ∧
    floatOverflows ⟨10 ^ 309 - 1, 1⟩ = true :=
  ⟨rfl, by decide⟩

/-- C9 as amended.  The extractor returns the default of 60 minutes
when no duration pattern matches, and on any input all of whose numeric
literals stay below the float overflow threshold it raises nothing and
agrees with the total model `extract_duration`; it is not total in
general, since a captured numeral at or above the threshold makes the
conversion raise `OverflowError`. -/
theorem C9_duration_no_overflow (ts : List DTok) :
    (findKwNumUnit "for" ts = none → findNumUnit ts = none →
      findKwNumUnit "lasting" ts = none →
      extract_durationE ts = .ok 60) ∧
    (numsBounded ts = true →
      extract_durationE ts = .ok (extract_duration ts)) := by
  constructor
  · intro h1 h2 h3
    simp [extract_durationE, h1, h2, h3]
  · intro hb
    rcases h1 : findKwNumUnit "for" ts with _ | ⟨n1, b1⟩
    · rcases h2 : findNumUnit ts with _ | ⟨n2, b2⟩
      · rcases h3 : findKwNumUnit "lasting" ts with _ | ⟨n3, b3⟩
        · simp [extract_durationE, extract_duration, h1, h2, h3]
        · have hm := findKwNumUnit_mem "lasting" ts (n3, b3) h3
          simp [extract_durationE, extract_duration, h1, h2, h3,
            durValueE_ok n3 b3 (numsBounded_mem ts n3 hb hm)]
      · have hm := findNumUnit_mem ts (n2, b2) h2
        simp [extract_durationE, extract_duration, h1, h2,
          durValueE_ok n2 b2 (numsBounded_mem ts n2 hb hm)]
    · have hm := findKwNumUnit_mem "for" ts (n1, b1) h1
      simp [extract_durationE, extract_duration, h1,
        durValueE_ok n1 b1 (numsBounded_mem ts n1 hb hm)]

set_option exponentiation.threshold 1100 in
/-- Witness for C9 as amended: `call mom` has no duration pattern and
yields the default without error, and `90 minutes` is far below the
overflow threshold, raising nothing and agreeing with the total
model. -/
theorem C9_duration_no_overflow_witness :
    extract_durationE [.word "call", .word "mom"] = .ok 60 ∧
    extract_durationE [.num ⟨90, 1⟩, .word "minutes"] =
      .ok (extract_duration [.num ⟨90, 1⟩, .word "minutes"]) := by
  constructor
  · exact (C9_duration_no_overflow [.word "call", .word "mom"]).1
      (by decide) (by decide) (by decide)
  · exact (C9_duration_no_overflow [.num ⟨90, 1⟩, .word "minutes"]).2
      (by decide)

/-! ## Claims about the confirmation dialogue -/

/-- Counterexample to C1.  An unambiguous natural-language draft in
`handle_natural_language` (`bot.py:318`) is persisted immediately via
`create_event`, with no confirmation step; and an ambiguous
natural-language parse in `set_task` (`task_manager_bot.py:232`) is
rejected with an error message instead of being routed to
confirmation. -/
theorem C1_confirmation_counterexample :
    handle_natural_language ⟨"dinner with family", false⟩ =
      HandlerAction.createDirect ∧
    set_task (.natural ⟨"call mom tonight", true⟩) =
      HandlerAction.rejectInput := by decide

/-- C1 as amended.  Structured pipe-delimited drafts, and
natural-language drafts entered through `/setevent`, always transition
to confirmation, and in the confirmation state a commitment is created
only on an explicit affirmative reply; but `handle_natural_language`
routes a draft to confirmation only when it is ambiguous — an
unambiguous draft is persisted directly — and `set_task` rejects an
ambiguous natural-language parse as an error instead of confirming
it. -/
theorem C1_confirmation_gate (p : NLParse) (resp : String)
    (hasPending : Bool) :
    (set_event (.structured true) = .askConfirmation) ∧
    (p.description ≠ "" → set_event (.natural p) = .askConfirmation) ∧
    (set_task (.structured true true) = .askConfirmation) ∧
    (handle_natural_language p = .askConfirmation ↔
      p.description ≠ "" ∧ p.ambiguous = true) ∧
    (handle_natural_language p = .createDirect ↔
      p.description ≠ "" ∧ p.ambiguous = false) ∧
    (set_task (.natural p) = .askConfirmation ↔
      p.description ≠ "" ∧ p.ambiguous = false) ∧
    (set_task (.natural p) = .rejectInput ↔
      p.description = "" ∨ p.ambiguous = true) ∧
    (handle_confirmation resp hasPending = .created ↔
      resp = "yes" ∧ hasPending = true) := by
  obtain ⟨d, a⟩ := p
  refine ⟨rfl, ?_, rfl, ?_, ?_, ?_, ?_, ?_⟩
  · intro hd
    simp [set_event, hd]
  · by_cases hd : d = "" <;> cases a <;>
      simp [handle_natural_language, hd]
  · by_cases hd : d = "" <;> cases a <;>
      simp [handle_natural_language, hd]
  · by_cases hd : d = "" <;> cases a <;>
      simp [set_task, hd]
  · by_cases hd : d = "" <;> cases a <;>
      simp [set_task, hd]
  · by_cases hy : resp = "yes" <;> by_cases hn : resp = "no" <;>
      cases hasPending <;>
        simp [handle_confirmation, hy, hn]

/-- Witness for C1 as amended, at concrete inputs: an unambiguous
two-token draft confirmed with `yes` is created; the same draft
answered `later` re-prompts and creates nothing. -/
theorem C1_confirmation_gate_witness :
    set_event (.natural ⟨"dinner tomorrow", false⟩) =
      HandlerAction.askConfirmation ∧
    handle_confirmation "yes" true = ConfirmOutcome.created ∧
    handle_confirmation "later" true ≠ ConfirmOutcome.created := by
  have h := C1_confirmation_gate ⟨"dinner tomorrow", false⟩ "yes" true
  have h2 := C1_confirmation_gate ⟨"dinner tomorrow", false⟩ "later" true
  refine ⟨h.2.1 (by decide), ?_, ?_⟩
  · exact (h.2.2.2.2.2.2.2).mpr ⟨rfl, rfl⟩
  · intro hc
    have := (h2.2.2.2.2.2.2.2).mp hc
    simp at this

/-! ## Claims about the lifecycle engine -/

/-- Counterexample to C2.  A row whose status is already the terminal
`Missed` (the auto-expiry has fired) is overwritten with `Done` by
`handle_event_response`, which matches on the id alone: the write of a
terminal status did not check that the stored status was still
`Pending`, and the later writer is not a no-op. -/
theorem C2_pending_guard_counterexample :
    (handle_event_response [⟨"dinner", "Missed", 0, 0, "X"⟩] [] true
        "X").1 = [⟨"dinner", "Done", 0, 0, "X"⟩] := by decide

/-- C2 as amended.  Only the auto-expiry writer observes the
compare-and-set discipline: `auto_update_event_status` matches on id
and still-`Pending` status, is a no-op when no such row exists, and any
row it changes was `Pending`.  The user-response writer
`handle_event_response` matches on the id alone and writes its terminal
status to the first id-matching row whatever that row currently holds,
so in a race the user response overwrites rather than becoming a
no-op. -/
theorem C2_pending_guard (rows : List LedgerRow) (jobs : List Job)
    (eid : String) (done : Bool) :
    (findFirstIdx (fun r => r.eventId == eid && r.status == "Pending")
        rows = none →
      auto_update_event_status rows eid = rows) ∧
    (∀ k,
      findFirstIdx (fun r => r.eventId == eid && r.status == "Pending")
          rows = some k →
      ∃ r, rows[k]? = some r ∧ r.status = "Pending" ∧
        auto_update_event_status rows eid = setStatus rows k "Missed") ∧
    (∀ k, findFirstIdx (fun r => r.eventId == eid) rows = some k →
      (handle_event_response rows jobs done eid).1 =
        setStatus rows k (if done then "Done" else "Missed")) := by
  refine ⟨?_, ?_, ?_⟩
  · intro h
    simp [auto_update_event_status, h]
  · intro k h
    obtain ⟨r, hr, hpr⟩ := findFirstIdx_some _ rows k h
    refine ⟨r, hr, ?_, ?_⟩
    · simp only [Bool.and_eq_true, beq_iff_eq] at hpr
      exact hpr.2
    · simp [auto_update_event_status, h]
  · intro k h
    simp [handle_event_response, h]

/-- Witness for C2 as amended: on a one-row sheet whose row is
`Pending`, the auto-expiry writes `Missed` to it, and the user response
writes `Done` to it. -/
theorem C2_pending_guard_witness :
    auto_update_event_status [⟨"a", "Pending", 0, 0, "X"⟩] "X" =
      [⟨"a", "Missed", 0, 0, "X"⟩] ∧
    (handle_event_response [⟨"a", "Pending", 0, 0, "X"⟩] [] true "X").1 =
      [⟨"a", "Done", 0, 0, "X"⟩] := by
  have h := C2_pending_guard [⟨"a", "Pending", 0, 0, "X"⟩] [] "X" true
  obtain ⟨r, -, -, heq⟩ := h.2.1 0 (by decide)
  refine ⟨?_, ?_⟩
  · rw [heq]; decide
  · rw [h.2.2 0 (by decide)]; decide

/-- Counterexample to C3.  A habit created by
`habit_tracker_bot.create_habit_event` with start 0 and duration 90
registers its check at minute 120 = T + D + 30, not at T + D = 90 as
the claim states for the Habit kind. -/
theorem C3_reminder_time_counterexample :
    (create_habit_event [] [] "Gym Workout" 0 90 "E1").2 =
      [⟨JobId.habitCheck "E1", 120⟩] ∧ (120 : Int) ≠ 0 + 90 := by decide

/-- C3 as amended.  The reminder job registered at creation fires at
`scheduled_at + duration` for Events, at `scheduled_at - 30` minutes
for Tasks, and at `scheduled_at + duration + 30` minutes for Habits
created by `habit_tracker_bot` (its extra 30-minute buffer is the
deviation from the claim). -/
theorem C3_reminder_time (rows : List LedgerRow) (trows : List TaskRow)
    (jobs : List Job) (desc eid : String) (startAt dur now due : Int) :
    (create_event rows jobs desc startAt dur eid).2 =
      jobs ++ [⟨JobId.check eid, startAt + dur⟩] ∧
    (create_task trows jobs desc now due).2 =
      jobs ++ [⟨JobId.taskReminder desc due, due - 30⟩] ∧
    (create_habit_event rows jobs desc now dur eid).2 =
      jobs ++ [⟨JobId.habitCheck eid, now + (dur + 30)⟩] :=
  ⟨rfl, rfl, rfl⟩

/-- Counterexample to C7.  The negative reply to a task reminder
(`task_not_done`) writes `Pending`, not `Missed`
(`task_manager_bot.py:322`): a pending task stays `Pending`, so the
negative response does not produce the terminal `Missed` status for the
Task kind. -/
theorem C7_negative_response_counterexample :
    handle_task_response [⟨"finish report", "Pending", 0, 100⟩] false
        "finish report" 100 =
      [⟨"finish report", "Pending", 0, 100⟩] ∧
    ("Pending" : String) ≠ "Missed" := by decide

/-- C7 as amended.  A negative outcome response writes the terminal
`Missed` status for Event and Habit commitments; for Task commitments
the negative (`Not Yet`) reply writes `Pending`, leaving the row
non-terminal. -/
theorem C7_negative_response (rows : List LedgerRow)
    (trows : List TaskRow) (jobs : List Job) (eid desc : String)
    (due : Int) :
    (∀ k, findFirstIdx (fun r => r.eventId == eid) rows = some k →
      (handle_event_response rows jobs false eid).1 =
        setStatus rows k "Missed") ∧
    (∀ r k, rows.find? (fun x => x.eventId == eid) = some r →
      get_habit_row rows r.desc r.date = some k →
      (handle_habit_response rows jobs false eid).1 =
        setStatus rows k "Missed") ∧
    (∀ k,
      findFirstIdx (fun r => lowerEq r.desc desc && r.dueDate == due)
          trows = some k →
      handle_task_response trows false desc due =
        setStatusTask trows k "Pending") := by
  refine ⟨?_, ?_, ?_⟩
  · intro k h
    simp [handle_event_response, h]
  · intro r k hfind hrow
    simp [handle_habit_response, hfind, hrow]
  · intro k h
    simp [handle_task_response, h]

/-- Witness for C7 as amended, on one-row sheets: the event and habit
negative responses write `Missed`, the task negative response writes
`Pending`. -/
theorem C7_negative_response_witness :
    (handle_event_response [⟨"gym", "Pending", 0, 0, "X"⟩] [] false
        "X").1 = [⟨"gym", "Missed", 0, 0, "X"⟩] ∧
    (handle_habit_response [⟨"gym", "Pending", 0, 0, "X"⟩] [] false
        "X").1 = [⟨"gym", "Missed", 0, 0, "X"⟩] ∧
    handle_task_response [⟨"gym", "Pending", 0, 9⟩] false "gym" 9 =
      [⟨"gym", "Pending", 0, 9⟩] := by
  have h := C7_negative_response [⟨"gym", "Pending", 0, 0, "X"⟩]
    [⟨"gym", "Pending", 0, 9⟩] [] "X" "gym" 9
  refine ⟨?_, ?_, ?_⟩
  · rw [h.1 0 (by decide)]; decide
  · rw [h.2.1 ⟨"gym", "Pending", 0, 0, "X"⟩ 0 (by decide) (by decide)]
    decide
  · rw [h.2.2 0 (by decide)]; decide

/-- Counterexample to C8.  Creating an event and immediately resolving
it with outcome `Done` leaves the completion-check job — registered
under the commitment id at creation — still outstanding:
`handle_event_response` cancels only `auto_update_<id>`, which does not
exist yet, and nothing ever cancels the job keyed by the id itself. -/
theorem C8_job_cleanup_counterexample :
    (handle_event_response (create_event [] [] "dinner" 1000 60 "X").1
        (create_event [] [] "dinner" 1000 60 "X").2 true "X").2 =
      [⟨JobId.check "X", 1060⟩] ∧
    ([⟨JobId.check "X", 1060⟩] : List Job) ≠ [] := by decide

/-- C8 as amended.  Cancelling a job that was never registered (or has
already fired and left the job table) raises inside `remove_job` but is
swallowed by the handler, which leaves the job table unchanged — it
never propagates.  Resolving an event cancels exactly the auto-expiry
job `auto_update_<id>`; the completion-check job registered under the
commitment id at creation survives resolution. -/
theorem C8_job_cleanup (rows : List LedgerRow) (jobs : List Job)
    (eid : String) (done : Bool) :
    (∀ jid, jobs.any (fun j => j.id == jid) = false →
      remove_job jobs jid = .error () ∧
      remove_job_safe jobs jid = jobs) ∧
    (∀ k, findFirstIdx (fun r => r.eventId == eid) rows = some k →
      (handle_event_response rows jobs done eid).2 =
        remove_job_safe jobs (JobId.autoUpdate eid)) ∧
    (∀ j, j ∈ jobs → j.id = JobId.check eid →
      j ∈ (handle_event_response rows jobs done eid).2) := by
  refine ⟨?_, ?_, ?_⟩
  · intro jid h
    constructor
    · simp [remove_job, h]
    · simp [remove_job_safe, remove_job, h]
  · intro k h
    simp [handle_event_response, h]
  · intro j hj hid
    rcases hfi : findFirstIdx (fun r => r.eventId == eid) rows with _ | k
    · simpa [handle_event_response, hfi] using hj
    · simp only [handle_event_response, hfi]
      by_cases hany : jobs.any (fun j => j.id == JobId.autoUpdate eid)
      · simp only [remove_job_safe, remove_job, if_pos hany]
        refine List.mem_filter.mpr ⟨hj, ?_⟩
        simp [hid]
      · simpa [remove_job_safe, remove_job, hany] using hj

/-- Witness for C8 as amended: with both the completion check and the
auto-expiry registered, resolving removes exactly the auto-expiry and
keeps the check; cancelling an id that was never registered is a
no-op. -/
theorem C8_job_cleanup_witness :
    remove_job_safe
        [⟨JobId.check "X", 60⟩, ⟨JobId.autoUpdate "X", 120⟩]
        (JobId.autoUpdate "Y") =
      [⟨JobId.check "X", 60⟩, ⟨JobId.autoUpdate "X", 120⟩] ∧
    (handle_event_response [⟨"a", "Pending", 0, 0, "X"⟩]
        [⟨JobId.check "X", 60⟩, ⟨JobId.autoUpdate "X", 120⟩] true
        "X").2 = [⟨JobId.check "X", 60⟩] ∧
    (⟨JobId.check "X", 60⟩ : Job) ∈
      (handle_event_response [⟨"a", "Pending", 0, 0, "X"⟩]
        [⟨JobId.check "X", 60⟩, ⟨JobId.autoUpdate "X", 120⟩] true
        "X").2 := by
  have h := C8_job_cleanup [⟨"a", "Pending", 0, 0, "X"⟩]
    [⟨JobId.check "X", 60⟩, ⟨JobId.autoUpdate "X", 120⟩] "X" true
  refine ⟨(h.1 (JobId.autoUpdate "Y") (by decide)).2, ?_,
    h.2.2 ⟨JobId.check "X", 60⟩ (by decide) rfl⟩
  rw [h.2.1 0 (by decide)]
  decide

/-- C10 (confirmed).  Each status-resolution write — the user outcome
response on events and tasks and the auto-expiry — changes at most the
status cell of the single first row matched by its lookup: lengths are
preserved, every non-status column of every row is preserved, and every
row other than the first matched one is wholly unchanged. -/
theorem C10_frame_effect (rows : List LedgerRow) (trows : List TaskRow)
    (jobs : List Job) (eid desc : String) (due : Int) (done : Bool) :
    ((handle_event_response rows jobs done eid).1.length = rows.length ∧
      (auto_update_event_status rows eid).length = rows.length ∧
      (handle_task_response trows done desc due).length =
        trows.length) ∧
    (∀ i : Nat,
      ((handle_event_response rows jobs done eid).1[i]?.map rowKey =
        rows[i]?.map rowKey) ∧
      ((auto_update_event_status rows eid)[i]?.map rowKey =
        rows[i]?.map rowKey) ∧
      ((handle_task_response trows done desc due)[i]?.map taskKey =
        trows[i]?.map taskKey)) ∧
    (∀ i : Nat, findFirstIdx (fun r => r.eventId == eid) rows ≠ some i →
      (handle_event_response rows jobs done eid).1[i]? =
        rows[i]?) ∧
    (∀ i : Nat,
      findFirstIdx (fun r => r.eventId == eid && r.status == "Pending")
          rows ≠ some i →
      (auto_update_event_status rows eid)[i]? = rows[i]?) ∧
    (∀ i : Nat,
      findFirstIdx (fun r => lowerEq r.desc desc && r.dueDate == due)
          trows ≠ some i →
      (handle_task_response trows done desc due)[i]? =
        trows[i]?) := by
  refine ⟨⟨?_, ?_, ?_⟩, ?_, ?_, ?_, ?_⟩
  · rcases hfi : findFirstIdx (fun r => r.eventId == eid) rows with _ | k <;>
      simp [handle_event_response, hfi, setStatus_length]
  · rcases hfi : findFirstIdx
        (fun r => r.eventId == eid && r.status == "Pending") rows with _ | k <;>
      simp [auto_update_event_status, hfi, setStatus_length]
  · rcases hfi : findFirstIdx
        (fun r => lowerEq r.desc desc && r.dueDate == due) trows with _ | k <;>
      simp [handle_task_response, hfi, setStatusTask_length]
  · intro i
    refine ⟨?_, ?_, ?_⟩
    · rcases hfi : findFirstIdx (fun r => r.eventId == eid) rows with _ | k <;>
        simp [handle_event_response, hfi, setStatus_getElem?_rowKey]
    · rcases hfi : findFirstIdx
          (fun r => r.eventId == eid && r.status == "Pending") rows with _ | k <;>
        simp [auto_update_event_status, hfi, setStatus_getElem?_rowKey]
    · rcases hfi : findFirstIdx
          (fun r => lowerEq r.desc desc && r.dueDate == due) trows with _ | k <;>
        simp [handle_task_response, hfi, setStatusTask_getElem?_taskKey]
  · intro i hne
    rcases hfi : findFirstIdx (fun r => r.eventId == eid) rows with _ | k
    · simp [handle_event_response, hfi]
    · have hki : i ≠ k := by rintro rfl; exact hne hfi
      simp [handle_event_response, hfi, setStatus_getElem?, if_neg hki]
  · intro i hne
    rcases hfi : findFirstIdx
        (fun r => r.eventId == eid && r.status == "Pending") rows with _ | k
    · simp [auto_update_event_status, hfi]
    · have hki : i ≠ k := by rintro rfl; exact hne hfi
      simp [auto_update_event_status, hfi, setStatus_getElem?, if_neg hki]
  · intro i hne
    rcases hfi : findFirstIdx
        (fun r => lowerEq r.desc desc && r.dueDate == due) trows with _ | k
    · simp [handle_task_response, hfi]
    · have hki : i ≠ k := by rintro rfl; exact hne hfi
      simp [handle_task_response, hfi, setStatusTask_getElem?, if_neg hki]

/-- Witness for C10, on a two-row sheet where row 0 matches: row 1 is
wholly unchanged by the resolution and the non-status columns of row 0
are preserved. -/
theorem C10_frame_effect_witness :
    (handle_event_response
        [⟨"a", "Pending", 0, 0, "X"⟩, ⟨"b", "Pending", 0, 0, "Y"⟩] []
        true "X").1[1]? =
      some ⟨"b", "Pending", 0, 0, "Y"⟩ ∧
    (handle_event_response
        [⟨"a", "Pending", 0, 0, "X"⟩, ⟨"b", "Pending", 0, 0, "Y"⟩] []
        true "X").1[0]?.map rowKey =
      some ("a", 0, 0, "X") := by
  have h := C10_frame_effect
    [⟨"a", "Pending", 0, 0, "X"⟩, ⟨"b", "Pending", 0, 0, "Y"⟩] [] []
    "X" "d" 0 true
  constructor
  · rw [h.2.2.1 1 (by decide)]; decide
  · rw [(h.2.1 0).1]; decide
